import Mathlib

/-!
Verification of the Quota-Aware Ingestion & Lifecycle Manager
(`src/vectorize.ts`, `src/cleanup.ts`) against its specification.

Strings are modelled as `List Char` (`Str`); timestamps as `Int` milliseconds;
embedding vectors (floats in the source) as opaque `List Int` payloads, which no
code path inspects.  The two Cloudflare KV namespaces (`DOC_METADATA`,
`DOCUMENT_METADATA`), the Vectorize index and the quota counter form an explicit
state record `St`; the fallible external calls (Workers AI embedding, Vectorize
upsert / deleteByIds) are driven by explicit oracles so that every exception
path of the source is a reachable branch of the model.
-/

abbrev Str := List Char

/-- `[^.!?]` vs `[.!?]` discrimination of `chunkText`'s sentence regex. -/
def isTerm (c : Char) : Bool := c = '.' || c = '!' || c = '?'

def isWS (c : Char) : Bool := c.isWhitespace

/-- JavaScript `String.prototype.trim`: drop whitespace from both ends. -/
def trim (s : Str) : Str := ((s.dropWhile isWS).reverse.dropWhile isWS).reverse

/-- Erase every whitespace character (the "modulo whitespace" normalisation). -/
def normWS (s : Str) : Str := s.filter (fun c => !(isWS c))

/--
Global matching of `/[^.!?]+[.!?]+/g` as a left-to-right scan.
`body` holds the `[^.!?]+` part matched so far, `terms` the `[.!?]+` run;
a character that can extend neither closes the current match.  Text covered
by no match (leading terminators, a trailing fragment with no terminator)
is dropped, exactly as `String.prototype.match` drops it.
-/
def sentAux (body : Str) (terms : Str) : Str → List Str
  | [] => if terms.isEmpty then [] else [body ++ terms]
  | c :: cs =>
    if isTerm c then
      if body.isEmpty then sentAux [] [] cs
      else sentAux body (terms ++ [c]) cs
    else
      if terms.isEmpty then sentAux (body ++ [c]) [] cs
      else (body ++ terms) :: sentAux [c] [] cs

def jsSentences (text : Str) : List Str := sentAux [] [] text

/-- `text.match(/[^.!?]+[.!?]+/g) || [text]` (`match` yields `null`, never `[]`). -/
def sentencesOf (text : Str) : List Str :=
  let m := jsSentences text
  if m.isEmpty then [text] else m

/-- One iteration of `chunkText`'s accumulation loop over a sentence. -/
def chunkStep (maxChunkSize : Nat) (acc : List Str × Str) (sentence : Str) : List Str × Str :=
  if maxChunkSize < (acc.2 ++ sentence).length ∧ 0 < acc.2.length then
    (acc.1 ++ [trim acc.2], sentence)
  else
    (acc.1, acc.2 ++ [' '] ++ sentence)

/-- `chunkText(text, maxChunkSize = 1000)` from `src/vectorize.ts`. -/
def chunkText (text : Str) (maxChunkSize : Nat := 1000) : List Str :=
  let r := (sentencesOf text).foldl (chunkStep maxChunkSize) ([], [])
  if 0 < (trim r.2).length then r.1 ++ [trim r.2] else r.1

/-! ## Data model: stores, records, results -/

/-- `MAX_VECTORS`, the Cloudflare Vectorize free-tier capacity ceiling. -/
def MAX_VECTORS : Int := 100

/-- Milliseconds per day, for the cleanup cutoff arithmetic. -/
def msPerDay : Int := 86400000

/-- The per-chunk metadata object built by `embedAndStore` and attached to each vector. -/
structure ChunkMeta where
  documentId : String
  documentName : String
  documentType : String
  chunkIndex : Nat
  textIndex : Nat
  chunk : Str
  fullChunk : Str
  timestamp : Int
deriving Repr, DecidableEq, Inhabited

/-- A record of the Vectorize index (`VectorizeVector`). -/
structure VecRec where
  id : String
  values : List Int
  meta : ChunkMeta
deriving Repr, DecidableEq

/--
A JSON value stored under a document key in either KV namespace; every field the
repository ever reads is optional, mirroring the duck-typed `as any` access.
`chunks` holds the ids extracted by `cleanup.ts` via `metadata.chunks?.map(c => c.id)`.
-/
structure DocMeta where
  name : String := ""
  dtype : String := ""
  chunksCount : Nat := 0
  uploadedAt : Option Int := none
  vectorIds : Option (List String) := none
  chunks : Option (List String) := none
deriving Repr, DecidableEq

/--
The mutable stores: the quota counter (kept under the reserved key
`__vector_count__` of `DOC_METADATA`), the document records of the two KV
namespaces `DOC_METADATA` and `DOCUMENT_METADATA`, and the Vectorize index.
-/
structure St where
  counter : Option Int := none
  docMeta : List (String × DocMeta) := []
  documentMeta : List (String × DocMeta) := []
  index : List VecRec := []
deriving Repr, DecidableEq

def kvGet (kv : List (String × DocMeta)) (k : String) : Option DocMeta :=
  (kv.find? (fun p => p.1 = k)).map Prod.snd

def kvPut (kv : List (String × DocMeta)) (k : String) (v : DocMeta) :
    List (String × DocMeta) :=
  (k, v) :: kv.filter (fun p => p.1 ≠ k)

def kvDelete (kv : List (String × DocMeta)) (k : String) : List (String × DocMeta) :=
  kv.filter (fun p => p.1 ≠ k)

/-- One `[METRIC]` log record of `emitQuotaMetric` (timestamp and the derived
`percentUsed` float omitted; `count`, `delta`, `reason` carried verbatim). -/
structure Metric where
  count : Int
  delta : Int
  reason : String
deriving Repr, DecidableEq

structure QuotaCheck where
  allowed : Bool
  currentCount : Int
  availableQuota : Int
deriving Repr, DecidableEq

structure EmbedMetadata where
  documentId : String
  documentName : String
  documentType : String
deriving Repr, DecidableEq

structure EmbedResponse where
  success : Bool
  vectorIds : Option (List String) := none
  error : Option String := none
deriving Repr, DecidableEq

structure DeleteResult where
  success : Bool
  deletedCount : Nat
  error : Option String := none
deriving Repr, DecidableEq

/--
Oracle for `embedAndStore`'s external calls: `embedData = none` means
`env.AI.run` threw or returned a shape failing the
`!embedResponse || !embedResponse.data || !Array.isArray(...)` guard;
`upsertOk = false` means `env.DOC_INDEX.upsert` threw (with message
`upsertErrMsg`); `now` is `Date.now()`.
-/
structure EmbExt where
  embedData : Option (List (List Int))
  upsertOk : Bool
  upsertErrMsg : String
  now : Int

/-- Oracle for `deleteDocumentVectors`: `deleteOk = false` means
`env.DOC_INDEX.deleteByIds` threw with message `deleteErrMsg`. -/
structure DelExt where
  deleteOk : Bool
  deleteErrMsg : String

/-- Oracle for `cleanupOldVectors`: wall clock and the set of document keys
whose `deleteByIds` call throws. -/
structure CleanupExt where
  now : Int
  deleteFails : List String

/-! ## Quota Tracker (`getVectorCount`, `updateVectorCount`, `checkVectorQuota`) -/

/-- `getVectorCount`: read the persisted counter, 0 when the key is absent. -/
def getVectorCount (st : St) : Int := st.counter.getD 0

/-- `updateVectorCount(delta)`: read, clamp `max(0, current + delta)`, persist, return. -/
def updateVectorCount (st : St) (delta : Int) : Int × St :=
  let currentCount := getVectorCount st
  let newCount := max 0 (currentCount + delta)
  (newCount, { st with counter := some newCount })

/-- `checkVectorQuota(requiredVectors)`: pure admission decision over a fresh read. -/
def checkVectorQuota (st : St) (requiredVectors : Nat) : QuotaCheck :=
  let currentCount := getVectorCount st
  let availableQuota := MAX_VECTORS - currentCount
  { allowed := decide ((requiredVectors : Int) ≤ availableQuota)
    currentCount
    availableQuota }

/-- Iterated `updateVectorCount` over a sequence of deltas (state component). -/
def applyDeltas (st : St) (ds : List Int) : St :=
  ds.foldl (fun s d => (updateVectorCount s d).2) st

/-! ## Ingestion Pipeline (`embedAndStore`) -/

/-- The flattened chunk list of step 1 of `embedAndStore`. -/
def allChunksOf (texts : List Str) : List Str :=
  (texts.map (fun t => chunkText t 1000)).flatten

/-- The per-chunk metadata list of step 1, positionally aligned with `allChunksOf`. -/
def chunkMetas (texts : List Str) (m : EmbedMetadata) (now : Int) : List ChunkMeta :=
  (texts.enum.map (fun ti =>
    (chunkText ti.2 1000).enum.map (fun ci =>
      { documentId := m.documentId
        documentName := m.documentName
        documentType := m.documentType
        chunkIndex := ci.1
        textIndex := ti.1
        chunk := ci.2.take 200
        fullChunk := ci.2
        timestamp := now : ChunkMeta }))).flatten

/-- The quota-denial error message of `embedAndStore`. -/
def vectorLimitMsg (currentCount availableQuota : Int) (requested : Nat) : String :=
  "Vector limit exceeded. Current count: " ++ toString currentCount ++ "/" ++
    toString MAX_VECTORS ++ ". Requested: " ++ toString requested ++
    ". Available quota: " ++ toString availableQuota

/-- Vectorize `upsert`: insert, overwriting any record with a colliding id. -/
def upsertVecs (index : List VecRec) (vs : List VecRec) : List VecRec :=
  index.filter (fun v => !((vs.map VecRec.id).contains v.id)) ++ vs

/-- `embedAndStore(texts, metadata, env)`: chunk, admission-check, embed,
upsert, account, persist metadata; every thrown exception is caught and
returned as a failure result.  Returns the result, the post-state and the
emitted metrics. -/
def embedAndStore (texts : List Str) (metadata : EmbedMetadata) (ext : EmbExt) (st : St) :
    EmbedResponse × St × List Metric :=
  let allChunks := allChunksOf texts
  let chunkMeta := chunkMetas texts metadata ext.now
  let quotaCheck := checkVectorQuota st allChunks.length
  if quotaCheck.allowed then
    match ext.embedData with
    | none =>
      ({ success := false, error := some "Invalid embedding response" }, st, [])
    | some ds =>
      let vectors : List VecRec := ds.enum.map (fun p =>
        { id := metadata.documentId ++ "-" ++ toString ext.now ++ "-" ++ toString p.1
          values := p.2
          meta := chunkMeta.getD p.1 default })
      if ext.upsertOk then
        let st1 := { st with index := upsertVecs st.index vectors }
        let r := updateVectorCount st1 (vectors.length : Int)
        let docRec : DocMeta :=
          { name := metadata.documentName
            dtype := metadata.documentType
            chunksCount := vectors.length
            uploadedAt := some ext.now
            vectorIds := some (vectors.map VecRec.id) }
        let st3 := { r.2 with docMeta := kvPut r.2.docMeta metadata.documentId docRec }
        ({ success := true, vectorIds := some (vectors.map VecRec.id) }, st3,
          [{ count := r.1, delta := (vectors.length : Int),
             reason := "upsert_document_" ++ metadata.documentId }])
      else
        ({ success := false, error := some ext.upsertErrMsg }, st, [])
  else
    ({ success := false
       error := some (vectorLimitMsg quotaCheck.currentCount quotaCheck.availableQuota
         allChunks.length) }, st,
     [{ count := quotaCheck.currentCount, delta := 0,
        reason := "quota_denied_requested_" ++ toString allChunks.length }])

/-! ## Deletion Pipeline (`deleteDocumentVectors`) -/

/-- `deleteDocumentVectors(documentId, env)` from `src/vectorize.ts`. -/
def deleteDocumentVectors (documentId : String) (dext : DelExt) (st : St) :
    DeleteResult × St × List Metric :=
  match kvGet st.docMeta documentId with
  | none => ({ success := true, deletedCount := 0 }, st, [])
  | some m =>
    match m.vectorIds with
    | none => ({ success := true, deletedCount := 0 }, st, [])
    | some vectorIds =>
      if dext.deleteOk then
        let st1 := { st with index := st.index.filter (fun v => !(vectorIds.contains v.id)) }
        let r := updateVectorCount st1 (-(vectorIds.length : Int))
        let st3 := { r.2 with docMeta := kvDelete r.2.docMeta documentId }
        ({ success := true, deletedCount := vectorIds.length }, st3,
          [{ count := r.1, delta := -(vectorIds.length : Int),
             reason := "delete_document_" ++ documentId }])
      else
        ({ success := false, deletedCount := 0, error := some dext.deleteErrMsg }, st, [])

/-! ## Cleanup Scheduler (`cleanupOldVectors`, `src/cleanup.ts`) -/

/--
One iteration of `cleanupOldVectors`'s loop over a listed key of
`DOCUMENT_METADATA`.  Note, as in the source: the vector ids come from the
record's `chunks` field (`metadata.chunks?.map(c => c.id) || []`), not from
`vectorIds`; a throwing `deleteByIds` is caught and logged; the metadata
record is deleted afterwards in every over-age case.
-/
def cleanupStep (ext : CleanupExt) (cutoff : Int) (acc : Nat × St) (key : String) :
    Nat × St :=
  match kvGet acc.2.documentMeta key with
  | none => acc
  | some m =>
    match m.uploadedAt with
    | none => acc
    | some uploadTimestamp =>
      if uploadTimestamp < cutoff then
        let vectorIds := m.chunks.getD []
        let acc1 :=
          if 0 < vectorIds.length then
            if ext.deleteFails.contains key then acc
            else
              let st1 := { acc.2 with
                index := acc.2.index.filter (fun v => !(vectorIds.contains v.id)) }
              (acc.1 + vectorIds.length, (updateVectorCount st1 (-(vectorIds.length : Int))).2)
          else acc
        (acc1.1, { acc1.2 with documentMeta := kvDelete acc1.2.documentMeta key })
      else acc

/-- `cleanupOldVectors(env, maxAgeInDays = 30)`: sweep every listed
`DOCUMENT_METADATA` key, returning the number of vectors deleted. -/
def cleanupOldVectors (ext : CleanupExt) (st : St) (maxAgeInDays : Int := 30) :
    Nat × St :=
  let cutoffTimestamp := ext.now - maxAgeInDays * msPerDay
  (st.documentMeta.map Prod.fst).foldl (cleanupStep ext cutoffTimestamp) (0, st)

/-! ## Invariant predicates for the chunk-size analysis -/

/-- A produced chunk is either at most one character over the maximum (the
separator space inserted by the accumulation loop) or the trim of a single
sentence. -/
def chunkOK (ss0 : List Str) (maxChunkSize : Nat) (ch : Str) : Prop :=
  ch.length ≤ maxChunkSize + 1 ∨ ∃ s ∈ ss0, ch = trim s

/-- Invariant for the loop accumulator `currentChunk`. -/
def currOK (ss0 : List Str) (maxChunkSize : Nat) (curr : Str) : Prop :=
  curr = [] ∨ curr.length ≤ maxChunkSize + 1 ∨ ∃ s ∈ ss0, trim curr = trim s

/-! ## Concrete instances used by the counterexample and witness theorems -/

def stQuota85 : St := { counter := some 85 }

def stQuotaFull : St := { counter := some 100 }

def extNoEmbed : EmbExt :=
  { embedData := none, upsertOk := true, upsertErrMsg := "", now := 0 }

def extOneVec : EmbExt :=
  { embedData := some [[1, 2]], upsertOk := true, upsertErrMsg := "", now := 1000 }

def metaDocA : EmbedMetadata :=
  { documentId := "docA", documentName := "A", documentType := "text" }

def delOk : DelExt := { deleteOk := true, deleteErrMsg := "" }

def delBoom : DelExt := { deleteOk := false, deleteErrMsg := "index down" }

/-- The state left by a successful one-chunk ingestion of document `docA`. -/
def stAfterIngest : St := (embedAndStore ["Old doc.".toList] metaDocA extOneVec stQuota85).2.1

/-- Cleanup oracle running 40 days after `extOneVec.now`. -/
def cleanupLater : CleanupExt := { now := 1000 + 40 * msPerDay, deleteFails := [] }

/-- An over-age `DOCUMENT_METADATA` record of the shape the ingestion pipeline
persists: a `vectorIds` list and no `chunks` field. -/
def staleRec : DocMeta := { uploadedAt := some 0, vectorIds := some ["v1", "v2"] }

def staleSt : St :=
  { counter := some 2
    documentMeta := [("docB", staleRec)]
    index := [{ id := "v1", values := [], meta := default },
              { id := "v2", values := [], meta := default }] }

def staleExt : CleanupExt := { now := 40 * msPerDay, deleteFails := [] }

/-- An over-age record of the shape cleanup expects (`chunks` ids present),
whose `deleteByIds` call will throw. -/
def failRec : DocMeta := { uploadedAt := some 0, chunks := some ["w1"] }

def failSt : St :=
  { counter := some 5
    documentMeta := [("docC", failRec)]
    index := [{ id := "w1", values := [], meta := default }] }

def failExt : CleanupExt := { now := 40 * msPerDay, deleteFails := ["docC"] }

/-- A `DOC_METADATA` state holding one deletable document, for the interactive
deletion contrast. -/
def delRec : DocMeta := { vectorIds := some ["z1"] }

def delSt : St :=
  { counter := some 1
    docMeta := [("docD", delRec)]
    index := [{ id := "z1", values := [], meta := default }] }

/-! ## Helper lemmas -/

theorem normWS_append (s t : Str) : normWS (s ++ t) = normWS s ++ normWS t := by
  simp [normWS]

theorem normWS_space : normWS [' '] = [] := rfl

theorem normWS_cons_space (t : Str) : normWS (' ' :: t) = normWS t := by
  rw [normWS, List.filter_cons, if_neg (by decide)]
  rfl

theorem normWS_dropWhile (s : Str) : normWS (s.dropWhile isWS) = normWS s := by
  induction s with
  | nil => rfl
  | cons c cs ih =>
    cases h : isWS c with
    | true =>
      rw [List.dropWhile_cons, if_pos h, ih]
      simp [normWS, h]
    | false => rw [List.dropWhile_cons, if_neg (by simp [h])]

theorem normWS_reverse (s : Str) : normWS s.reverse = (normWS s).reverse := by
  simp [normWS, List.filter_reverse]

theorem normWS_trim (s : Str) : normWS (trim s) = normWS s := by
  unfold trim
  rw [normWS_reverse, normWS_dropWhile, normWS_reverse, List.reverse_reverse,
    normWS_dropWhile]

theorem normWS_eq_nil_of_trim (s : Str) (h : trim s = []) : normWS s = [] := by
  rw [← normWS_trim, h]; rfl

theorem length_trim_le (s : Str) : (trim s).length ≤ s.length := by
  unfold trim
  calc (((s.dropWhile isWS).reverse.dropWhile isWS).reverse).length
      = ((s.dropWhile isWS).reverse.dropWhile isWS).length := List.length_reverse _
    _ ≤ (s.dropWhile isWS).reverse.length := (List.dropWhile_sublist isWS).length_le
    _ = (s.dropWhile isWS).length := List.length_reverse _
    _ ≤ s.length := (List.dropWhile_sublist isWS).length_le

theorem trim_cons_space (s : Str) : trim (' ' :: s) = trim s := by
  have h : isWS ' ' = true := rfl
  simp [trim, List.dropWhile_cons, h]

theorem kvGet_kvPut_same (kv : List (String × DocMeta)) (k : String) (v : DocMeta) :
    kvGet (kvPut kv k v) k = some v := by
  simp [kvGet, kvPut, List.find?]

theorem applyDeltas_nonneg (ds : List Int) :
    ∀ st : St, 0 ≤ getVectorCount st → 0 ≤ getVectorCount (applyDeltas st ds) := by
  induction ds with
  | nil => intro st h; simpa [applyDeltas] using h
  | cons a as ih =>
    intro st h
    have h2 : 0 ≤ getVectorCount (updateVectorCount st a).2 := by
      simp [updateVectorCount, getVectorCount]
    simpa [applyDeltas, List.foldl_cons] using ih _ h2

/-- C5: `checkVectorQuota(n)` returns `availableQuota = MAX_VECTORS − current`,
echoes the current count, and allows exactly when `n ≤ availableQuota`; it
returns a pure decision record without touching the state (its type performs
no write), and an absent counter key reads as 0. -/
theorem checkVectorQuota_spec (st : St) (n : Nat) :
    (checkVectorQuota st n).availableQuota = MAX_VECTORS - getVectorCount st ∧
    (checkVectorQuota st n).currentCount = getVectorCount st ∧
    ((checkVectorQuota st n).allowed = true ↔
      (n : Int) ≤ MAX_VECTORS - getVectorCount st) ∧
    getVectorCount { st with counter := none } = 0 := by
  refine ⟨rfl, rfl, ?_, rfl⟩
  simp [checkVectorQuota]

theorem checkVectorQuota_spec_witness :
    (checkVectorQuota stQuota85 10).availableQuota = MAX_VECTORS - getVectorCount stQuota85 ∧
    (checkVectorQuota stQuota85 10).currentCount = getVectorCount stQuota85 ∧
    ((checkVectorQuota stQuota85 10).allowed = true ↔
      (10 : Int) ≤ MAX_VECTORS - getVectorCount stQuota85) ∧
    getVectorCount { stQuota85 with counter := none } = 0 :=
  checkVectorQuota_spec stQuota85 10

/-- C6: `updateVectorCount(delta)` persists and returns `max(0, current + delta)`,
which is never negative, and iterating it over any sequence of deltas from a
non-negative counter keeps the persisted counter non-negative. -/
theorem updateVectorCount_spec (st : St) (d : Int) (ds : List Int)
    (h : 0 ≤ getVectorCount st) :
    (updateVectorCount st d).1 = max 0 (getVectorCount st + d) ∧
    (updateVectorCount st d).2.counter = some (max 0 (getVectorCount st + d)) ∧
    0 ≤ (updateVectorCount st d).1 ∧
    0 ≤ getVectorCount (applyDeltas st ds) :=
  ⟨rfl, rfl, le_max_left 0 _, applyDeltas_nonneg ds st h⟩

theorem updateVectorCount_spec_witness :
    0 ≤ getVectorCount stQuota85 ∧
    ((updateVectorCount stQuota85 (-90)).1 = max 0 (getVectorCount stQuota85 + (-90)) ∧
     (updateVectorCount stQuota85 (-90)).2.counter =
       some (max 0 (getVectorCount stQuota85 + (-90))) ∧
     0 ≤ (updateVectorCount stQuota85 (-90)).1 ∧
     0 ≤ getVectorCount (applyDeltas stQuota85 [5, -200, 3])) :=
  ⟨by decide, updateVectorCount_spec stQuota85 (-90) [5, -200, 3] (by decide)⟩

/-- C8: `deleteDocumentVectors` on a document id whose metadata record is
absent, or carries no `vectorIds` list, returns success with `deletedCount = 0`,
mutates no store, and emits no metric. -/
theorem deleteDocumentVectors_noop (docId : String) (dext : DelExt) (st : St)
    (h : kvGet st.docMeta docId = none ∨
      ∃ m, kvGet st.docMeta docId = some m ∧ m.vectorIds = none) :
    deleteDocumentVectors docId dext st =
      ({ success := true, deletedCount := 0 }, st, []) := by
  rcases h with h | ⟨m, hm, hv⟩
  · simp [deleteDocumentVectors, h]
  · simp [deleteDocumentVectors, hm, hv]

theorem deleteDocumentVectors_noop_witness :
    (kvGet (St.mk (some 85) [] [] []).docMeta "ghost" = none ∨
      ∃ m, kvGet (St.mk (some 85) [] [] []).docMeta "ghost" = some m ∧
        m.vectorIds = none) ∧
    deleteDocumentVectors "ghost" delOk (St.mk (some 85) [] [] []) =
      ({ success := true, deletedCount := 0 }, St.mk (some 85) [] [] [], []) :=
  ⟨Or.inl rfl, deleteDocumentVectors_noop "ghost" delOk (St.mk (some 85) [] [] [])
    (Or.inl rfl)⟩

/-- C3: when the admission check denies a batch, `embedAndStore` returns a
failure whose message carries the current count, the limit, the requested
count and the available quota, emits exactly one `quota_denied_requested_{n}`
metric with delta 0 and the pre-check count, and leaves every store — index,
counter, metadata — exactly as it was. -/
theorem embedAndStore_denied (texts : List Str) (m : EmbedMetadata) (ext : EmbExt)
    (st : St)
    (h : (checkVectorQuota st (allChunksOf texts).length).allowed = false) :
    embedAndStore texts m ext st =
      ({ success := false
         error := some (vectorLimitMsg (getVectorCount st)
           (MAX_VECTORS - getVectorCount st) (allChunksOf texts).length) }, st,
       [{ count := getVectorCount st, delta := 0,
          reason := "quota_denied_requested_" ++ toString (allChunksOf texts).length }]) := by
  rw [embedAndStore, if_neg (by simp [h])]
  rfl

theorem embedAndStore_denied_witness :
    (checkVectorQuota stQuotaFull (allChunksOf ["Hi.".toList]).length).allowed = false ∧
    embedAndStore ["Hi.".toList] metaDocA extNoEmbed stQuotaFull =
      ({ success := false
         error := some (vectorLimitMsg (getVectorCount stQuotaFull)
           (MAX_VECTORS - getVectorCount stQuotaFull)
           (allChunksOf ["Hi.".toList]).length) }, stQuotaFull,
       [{ count := getVectorCount stQuotaFull, delta := 0,
          reason := "quota_denied_requested_" ++
            toString (allChunksOf ["Hi.".toList]).length }]) :=
  ⟨by decide, embedAndStore_denied ["Hi.".toList] metaDocA extNoEmbed stQuotaFull
    (by decide)⟩

/-- C4: if the embedding response is invalid or the vector-store upsert throws,
`embedAndStore` performs no counter adjustment, no metadata write and no index
change (the whole post-state equals the pre-state), and the exception surfaces
as a failure result carrying a message instead of propagating. -/
theorem embedAndStore_failure_no_mutation (texts : List Str) (m : EmbedMetadata)
    (ext : EmbExt) (st : St)
    (h : ext.embedData = none ∨ ext.upsertOk = false) :
    (embedAndStore texts m ext st).1.success = false ∧
    ((embedAndStore texts m ext st).1.error).isSome = true ∧
    (embedAndStore texts m ext st).2.1 = st := by
  by_cases hq : (checkVectorQuota st (allChunksOf texts).length).allowed = true
  · rcases h with h | h
    · rw [embedAndStore, if_pos hq, h]
      exact ⟨rfl, rfl, rfl⟩
    · cases hd : ext.embedData with
      | none =>
        rw [embedAndStore, if_pos hq, hd]
        exact ⟨rfl, rfl, rfl⟩
      | some ds =>
        rw [embedAndStore, if_pos hq, hd]
        simp [h]
  · rw [embedAndStore, if_neg hq]
    exact ⟨rfl, rfl, rfl⟩

theorem embedAndStore_failure_no_mutation_witness :
    (extNoEmbed.embedData = none ∨ extNoEmbed.upsertOk = false) ∧
    ((embedAndStore ["Hi.".toList] metaDocA extNoEmbed stQuota85).1.success = false ∧
     ((embedAndStore ["Hi.".toList] metaDocA extNoEmbed stQuota85).1.error).isSome = true ∧
     (embedAndStore ["Hi.".toList] metaDocA extNoEmbed stQuota85).2.1 = stQuota85) :=
  ⟨Or.inl rfl, embedAndStore_failure_no_mutation ["Hi.".toList] metaDocA extNoEmbed
    stQuota85 (Or.inl rfl)⟩

/-- C9: successfully ingesting a batch of N chunks (one embedding per chunk)
and then successfully deleting the same document returns the quota counter to
its pre-ingestion value; the deletion removes exactly the N stored vector ids. -/
theorem ingest_delete_round_trip (texts : List Str) (m : EmbedMetadata)
    (ext : EmbExt) (dext : DelExt) (st : St) (es : List (List Int))
    (hq : (checkVectorQuota st (allChunksOf texts).length).allowed = true)
    (he : ext.embedData = some es)
    (hn : es.length = (allChunksOf texts).length)
    (hu : ext.upsertOk = true)
    (hd : dext.deleteOk = true)
    (hc : 0 ≤ getVectorCount st) :
    (embedAndStore texts m ext st).1.success = true ∧
    (deleteDocumentVectors m.documentId dext (embedAndStore texts m ext st).2.1).1.success
      = true ∧
    (deleteDocumentVectors m.documentId dext (embedAndStore texts m ext st).2.1).1.deletedCount
      = (allChunksOf texts).length ∧
    getVectorCount
      (deleteDocumentVectors m.documentId dext (embedAndStore texts m ext st).2.1).2.1
      = getVectorCount st := by
  rw [embedAndStore, if_pos hq, he]
  simp only [hu, if_true]
  refine ⟨trivial, ?_, ?_, ?_⟩
  · simp [deleteDocumentVectors, kvGet_kvPut_same, hd]
  · simp [deleteDocumentVectors, kvGet_kvPut_same, hd, hn]
  · simp [deleteDocumentVectors, kvGet_kvPut_same, hd, updateVectorCount, getVectorCount]
    simp [getVectorCount] at hc
    omega

theorem ingest_delete_round_trip_witness :
    ((checkVectorQuota stQuota85 (allChunksOf ["Hi there.".toList]).length).allowed = true ∧
     extOneVec.embedData = some [[1, 2]] ∧
     ([[1, 2]] : List (List Int)).length = (allChunksOf ["Hi there.".toList]).length ∧
     extOneVec.upsertOk = true ∧ delOk.deleteOk = true ∧
     0 ≤ getVectorCount stQuota85) ∧
    ((embedAndStore ["Hi there.".toList] metaDocA extOneVec stQuota85).1.success = true ∧
     (deleteDocumentVectors metaDocA.documentId delOk
       (embedAndStore ["Hi there.".toList] metaDocA extOneVec stQuota85).2.1).1.success = true ∧
     (deleteDocumentVectors metaDocA.documentId delOk
       (embedAndStore ["Hi there.".toList] metaDocA extOneVec stQuota85).2.1).1.deletedCount
       = (allChunksOf ["Hi there.".toList]).length ∧
     getVectorCount
       (deleteDocumentVectors metaDocA.documentId delOk
         (embedAndStore ["Hi there.".toList] metaDocA extOneVec stQuota85).2.1).2.1
       = getVectorCount stQuota85) :=
  ⟨⟨by decide, rfl, by decide, rfl, rfl, by decide⟩,
   ingest_delete_round_trip ["Hi there.".toList] metaDocA extOneVec delOk stQuota85
     [[1, 2]] (by decide) rfl (by decide) rfl rfl (by decide)⟩

/-- C1: evaluation of the cleanup sweep against documents persisted by the
ingestion pipeline.  A successfully ingested document (`docA`) whose upload
timestamp predates the 30-day cutoff keeps its vectors, its counter
contribution and its metadata record after the sweep, because ingestion
persists records (with a `vectorIds` list) into `DOC_METADATA` while the sweep
scans `DOCUMENT_METADATA` and extracts ids from a `chunks` field no writer
produces; an over-age `DOCUMENT_METADATA` record of the persisted shape
(`staleRec`) likewise loses its metadata record while its two listed vectors
stay in the index and the counter stays at 2, contradicting the claim that the
sweep removes exactly the listed vectors and decrements the counter. -/
theorem cleanup_misses_ingested_vectors :
    (embedAndStore ["Old doc.".toList] metaDocA extOneVec stQuota85).1.success = true ∧
    kvGet stAfterIngest.docMeta "docA" =
      some { name := "A", dtype := "text", chunksCount := 1,
             uploadedAt := some 1000, vectorIds := some ["docA-1000-0"] } ∧
    (1000 : Int) < cleanupLater.now - 30 * msPerDay ∧
    stAfterIngest.counter = some 86 ∧
    stAfterIngest.index.map VecRec.id = ["docA-1000-0"] ∧
    cleanupOldVectors cleanupLater stAfterIngest 30 = (0, stAfterIngest) ∧
    staleRec.uploadedAt = some 0 ∧ staleRec.vectorIds = some ["v1", "v2"] ∧
    (0 : Int) < staleExt.now - 30 * msPerDay ∧
    cleanupOldVectors staleExt staleSt 30 = (0, { staleSt with documentMeta := [] }) := by
  refine ⟨rfl, by decide, by decide, rfl, by decide, rfl, rfl, rfl, by decide, by decide⟩

/-- C10: during the cleanup sweep, when `deleteByIds` throws for an over-age
document, the sweep still deletes that document's metadata record while
neither the index nor the counter changes — orphaning the vectors — whereas
the interactive deletion pipeline on a vector-removal failure returns failure
and leaves the metadata record (and all stores) intact. -/
theorem cleanup_orphans_on_delete_failure
    (ext : CleanupExt) (st : St) (key : String) (m : DocMeta) (t : Int)
    (ids : List String) (dext : DelExt) (st2 : St) (docId : String) (m2 : DocMeta)
    (ids2 : List String)
    (h1 : st.documentMeta = [(key, m)]) (h2 : m.uploadedAt = some t)
    (h3 : t < ext.now - 30 * msPerDay) (h4 : m.chunks = some ids) (h5 : ids ≠ [])
    (h6 : ext.deleteFails.contains key = true)
    (g1 : kvGet st2.docMeta docId = some m2) (g2 : m2.vectorIds = some ids2)
    (g3 : dext.deleteOk = false) :
    cleanupOldVectors ext st 30 = (0, { st with documentMeta := [] }) ∧
    deleteDocumentVectors docId dext st2 =
      ({ success := false, deletedCount := 0, error := some dext.deleteErrMsg },
        st2, []) := by
  constructor
  · have hlen : 0 < ids.length := List.length_pos.mpr h5
    have h6m : key ∈ ext.deleteFails := by simpa using h6
    simp [cleanupOldVectors, cleanupStep, h1, h2, h3, h4, hlen, h6m, kvGet, kvDelete]
  · simp [deleteDocumentVectors, g1, g2, g3]

theorem cleanup_orphans_on_delete_failure_witness :
    (failSt.documentMeta = [("docC", failRec)] ∧ failRec.uploadedAt = some 0 ∧
     (0 : Int) < failExt.now - 30 * msPerDay ∧ failRec.chunks = some ["w1"] ∧
     (["w1"] : List String) ≠ [] ∧ failExt.deleteFails.contains "docC" = true ∧
     kvGet delSt.docMeta "docD" = some delRec ∧ delRec.vectorIds = some ["z1"] ∧
     delBoom.deleteOk = false) ∧
    (cleanupOldVectors failExt failSt 30 = (0, { failSt with documentMeta := [] }) ∧
     deleteDocumentVectors "docD" delBoom delSt =
       ({ success := false, deletedCount := 0, error := some delBoom.deleteErrMsg },
         delSt, [])) :=
  ⟨⟨rfl, rfl, by decide, rfl, by decide, by decide, by decide, rfl, rfl⟩,
   cleanup_orphans_on_delete_failure failExt failSt "docC" failRec 0 ["w1"] delBoom
     delSt "docD" delRec ["z1"] rfl rfl (by decide) rfl (by decide) (by decide)
     (by decide) rfl rfl⟩

theorem chunkFold_normWS (maxChunkSize : Nat) :
    ∀ (ss : List Str) (acc : List Str × Str),
      normWS ((ss.foldl (chunkStep maxChunkSize) acc).1.flatten ++
        (ss.foldl (chunkStep maxChunkSize) acc).2) =
      normWS (acc.1.flatten ++ (acc.2 ++ ss.flatten)) := by
  intro ss
  induction ss with
  | nil => intro acc; simp
  | cons s ss ih =>
    intro acc
    rw [List.foldl_cons, ih]
    unfold chunkStep
    split
    · simp [normWS_append, normWS_trim, List.flatten_append, List.append_assoc]
    · simp [normWS_append, normWS_space, normWS_cons_space, List.flatten_append,
        List.append_assoc]

/-- C2 (amended): the concatenation of the chunks, with whitespace erased,
equals the whitespace-erased concatenation of the regex-matched sentences —
the whole input whenever no sentence boundary matches.  Input characters
covered by no sentence match (leading `.`/`!`/`?` runs and a trailing fragment
without terminal punctuation) are dropped by the sentence splitter, so full
reconstruction of the input does not hold in general (see the
counterexample). -/
theorem chunkText_normWS (text : Str) (maxChunkSize : Nat) :
    normWS (chunkText text maxChunkSize).flatten =
      normWS (sentencesOf text).flatten := by
  have h := chunkFold_normWS maxChunkSize (sentencesOf text) ([], [])
  simp only [List.flatten_nil, List.nil_append] at h
  simp only [chunkText]
  split
  · rename_i hp
    simp only [List.flatten_append, List.flatten_cons, List.flatten_nil, List.append_nil,
      normWS_append, normWS_trim] at h ⊢
    exact h
  · rename_i hp
    have hnil : trim ((sentencesOf text).foldl (chunkStep maxChunkSize) ([], [])).2 = [] :=
      List.eq_nil_of_length_eq_zero (Nat.eq_zero_of_not_pos hp)
    have h2 := normWS_eq_nil_of_trim _ hnil
    rw [normWS_append, h2, List.append_nil] at h
    exact h

/-- C2 (counterexample): on input `"Hi. Bye"` the chunker returns only
`["Hi."]`; the trailing fragment `"Bye"` carries no terminal punctuation, is
matched by no sentence, and is dropped, so the concatenation of the chunks
differs from the input even after erasing every whitespace character — a
fortiori after mere trimming. -/
theorem chunkText_drops_input :
    chunkText "Hi. Bye".toList 1000 = ["Hi.".toList] ∧
    normWS (chunkText "Hi. Bye".toList 1000).flatten ≠ normWS "Hi. Bye".toList := by
  exact ⟨by decide, by decide⟩

theorem chunkStep_ok (maxChunkSize : Nat) (ss0 : List Str) (acc : List Str × Str)
    (s : Str) (hs : s ∈ ss0)
    (h1 : ∀ ch ∈ acc.1, chunkOK ss0 maxChunkSize ch)
    (h2 : currOK ss0 maxChunkSize acc.2) :
    (∀ ch ∈ (chunkStep maxChunkSize acc s).1, chunkOK ss0 maxChunkSize ch) ∧
    currOK ss0 maxChunkSize (chunkStep maxChunkSize acc s).2 := by
  unfold chunkStep
  split
  · rename_i hcond
    refine ⟨?_, Or.inr (Or.inr ⟨s, hs, rfl⟩)⟩
    intro ch hch
    rcases List.mem_append.mp hch with hch | hch
    · exact h1 ch hch
    · have hch' : ch = trim acc.2 := List.mem_singleton.mp hch
      subst hch'
      rcases h2 with h2 | h2 | ⟨u, hu, he⟩
      · rw [h2] at hcond; simp at hcond
      · exact Or.inl (le_trans (length_trim_le _) h2)
      · exact Or.inr ⟨u, hu, he⟩
  · rename_i hcond
    refine ⟨h1, ?_⟩
    rcases eq_or_ne acc.2 [] with hne | hne
    · rw [hne]
      exact Or.inr (Or.inr ⟨s, hs, by simp [trim_cons_space]⟩)
    · have h0 : 0 < acc.2.length := List.length_pos.mpr hne
      have hle : (acc.2 ++ s).length ≤ maxChunkSize := by
        rcases Nat.lt_or_ge maxChunkSize (acc.2 ++ s).length with hlt | hge
        · exact absurd ⟨hlt, h0⟩ hcond
        · exact hge
      refine Or.inr (Or.inl ?_)
      simp [List.length_append] at hle ⊢
      omega

theorem chunkFold_ok (maxChunkSize : Nat) (ss0 : List Str) :
    ∀ (ss : List Str) (acc : List Str × Str),
      (∀ s ∈ ss, s ∈ ss0) →
      (∀ ch ∈ acc.1, chunkOK ss0 maxChunkSize ch) →
      currOK ss0 maxChunkSize acc.2 →
      (∀ ch ∈ (ss.foldl (chunkStep maxChunkSize) acc).1, chunkOK ss0 maxChunkSize ch) ∧
      currOK ss0 maxChunkSize (ss.foldl (chunkStep maxChunkSize) acc).2 := by
  intro ss
  induction ss with
  | nil => intro acc _ h1 h2; exact ⟨h1, h2⟩
  | cons s ss ih =>
    intro acc hss h1 h2
    rw [List.foldl_cons]
    obtain ⟨k1, k2⟩ := chunkStep_ok maxChunkSize ss0 acc s (hss s (List.mem_cons_self s ss)) h1 h2
    exact ih _ (fun x hx => hss x (List.mem_cons_of_mem _ hx)) k1 k2

/-- C7 (amended): every chunk returned by `chunkText` is either at most
`maxChunkSize + 1` characters long — one over the bound, because the loop's
admission test `(currentChunk + sentence).length > maxChunkSize` ignores the
separator space it then inserts — or is the trim of a single sentence of the
input (the oversized-sentence edge case).  The original bound `maxChunkSize`
fails (see the counterexample). -/
theorem chunkText_size_bound (text : Str) (maxChunkSize : Nat) (ch : Str)
    (h : ch ∈ chunkText text maxChunkSize) :
    ch.length ≤ maxChunkSize + 1 ∨ ∃ s ∈ sentencesOf text, ch = trim s := by
  obtain ⟨k1, k2⟩ := chunkFold_ok maxChunkSize (sentencesOf text) (sentencesOf text)
    ([], []) (fun _ hx => hx) (by simp) (Or.inl rfl)
  simp only [chunkText] at h
  split at h
  · rename_i hp
    rcases List.mem_append.mp h with hch | hch
    · exact k1 ch hch
    · have hch' : ch = trim ((sentencesOf text).foldl (chunkStep maxChunkSize) ([], [])).2 :=
        List.mem_singleton.mp hch
      subst hch'
      rcases k2 with k2 | k2 | ⟨u, hu, he⟩
      · rw [k2] at hp; simp [trim] at hp
      · exact Or.inl (le_trans (length_trim_le _) k2)
      · exact Or.inr ⟨u, hu, he⟩
  · exact k1 ch h

theorem chunkText_size_bound_witness :
    "xx.".toList ∈ chunkText "xx.a.b.".toList 4 ∧
    ("xx.".toList.length ≤ 4 + 1 ∨
      ∃ s ∈ sentencesOf "xx.a.b.".toList, "xx.".toList = trim s) :=
  ⟨by decide, chunkText_size_bound "xx.a.b.".toList 4 "xx.".toList (by decide)⟩

/-- C7 (counterexample): on input `"xx.a.b."` with maximum size 4, every
sentence has length at most 4, yet the chunker returns the chunk `"a. b."` of
length 5: the loop tests `(currentChunk + sentence).length > maxChunkSize`
without the separator space it then appends, so a multi-sentence chunk may
exceed the maximum by one character even though no single sentence does. -/
theorem chunkText_exceeds_max :
    (∀ s ∈ sentencesOf "xx.a.b.".toList, s.length ≤ 4) ∧
    "a. b.".toList ∈ chunkText "xx.a.b.".toList 4 ∧
    4 < "a. b.".toList.length := by
  exact ⟨by decide, by decide, by decide⟩
